/-
Verification of the NEON MCP server API access layer.

The definitions below are a shallow embedding of the TypeScript sources
src/mcp/src/api/cache.ts (class ApiCache) and src/mcp/src/api/client.ts
(class NeonApiClient).  Strings stand for JavaScript strings, Nat for the
non-negative integer timestamps and durations the code manipulates, and
Except String stands for promise rejection with an Error message.
-/
import Mathlib

/-! ### JavaScript string primitives

The sources use `String.prototype.includes`, `toUpperCase`, `toLowerCase`
and `Array.prototype.join`.  The inputs are ASCII, so ASCII case mapping
is the faithful embedding.  All functions below are structurally
recursive so that concrete instances evaluate inside the kernel. -/

/-- Does the character list `s` start with the character list `pat`? -/
def strStarts : List Char → List Char → Bool
  | [], _ => true
  | _ :: _, [] => false
  | p :: ps, c :: cs => p == c && strStarts ps cs

/-- Does the character list `s` contain `pat` as a contiguous sublist? -/
def hasSubList (pat : List Char) : List Char → Bool
  | [] => pat.isEmpty
  | c :: cs => strStarts pat (c :: cs) || hasSubList pat cs

/-- JavaScript `s.includes(pat)`. -/
def strContains (s pat : String) : Bool :=
  hasSubList pat.data s.data

/-- ASCII upper-casing of one character, as `toUpperCase` acts on ASCII. -/
def upChar (c : Char) : Char :=
  if 97 ≤ c.toNat && c.toNat ≤ 122 then Char.ofNat (c.toNat - 32) else c

/-- ASCII lower-casing of one character, as `toLowerCase` acts on ASCII. -/
def downChar (c : Char) : Char :=
  if 65 ≤ c.toNat && c.toNat ≤ 90 then Char.ofNat (c.toNat + 32) else c

/-- JavaScript `s.toUpperCase()` on ASCII input. -/
def jsToUpper (s : String) : String :=
  String.mk (s.data.map upChar)

/-- JavaScript `s.toLowerCase()` on ASCII input. -/
def jsToLower (s : String) : String :=
  String.mk (s.data.map downChar)

/-- JavaScript `Array.prototype.join(sep)`. -/
def joinWith (sep : String) : List String → String
  | [] => ""
  | [x] => x
  | x :: y :: xs => x ++ sep ++ joinWith sep (y :: xs)

/-- Lexicographic comparison of character lists, as the default
comparator of JavaScript `Array.prototype.sort()` compares strings
(code-unit by code-unit; the keys here are ASCII). -/
def charsLe : List Char → List Char → Bool
  | [], _ => true
  | _ :: _, [] => false
  | a :: as, b :: bs =>
    if a < b then true
    else if a = b then charsLe as bs
    else false

/-- The string order used by `Object.keys(params).sort()`. -/
def keyLe (a b : String) : Bool :=
  charsLe a.data b.data

/-! ### JavaScript values

Parameter objects (`Record<string, any>`) are embedded as association
lists from property names to `JSVal`; a property that is absent from the
object is absent from the list, while a property that is present with
value `undefined` is a `(key, JSVal.undef)` entry. -/

/-- The JavaScript values that occur as request-parameter values. -/
inductive JSVal where
  | str (s : String)
  | num (n : Int)
  | bool (b : Bool)
  | undef
  | null
  | arrStr (xs : List String)
deriving DecidableEq

/-- JavaScript template-literal stringification of a value, as in the
source template `\x7bkey\x7d=\x7bparams[key]\x7d`. -/
def jsDisplay : JSVal → String
  | .str s => s
  | .num n => toString n
  | .bool b => if b then "true" else "false"
  | .undef => "undefined"
  | .null => "null"
  | .arrStr xs => joinWith "," xs

/-! ### cache.ts — class ApiCache -/

/-- `CacheEntry<T>` from types.ts: the stored data, the `Date.now()`
stamp taken at `set` time, and the entry time-to-live. -/
structure CacheEntry (T : Type) where
  data : T
  timestamp : Nat
  ttl : Nat
deriving DecidableEq

/-- The cache: the `Map` underlying store plus the `defaultTtl` field. -/
structure ApiCache (T : Type) where
  store : List (String × CacheEntry T)
  defaultTtl : Nat
deriving DecidableEq

/-- JavaScript `x || dflt` on an optional number: `undefined` and the
falsy number `0` both yield the default. -/
def jsNumOr (x : Option Nat) (dflt : Nat) : Nat :=
  match x with
  | none => dflt
  | some v => if v == 0 then dflt else v

/-- `ttl || this.defaultTtl` from `ApiCache.set`. -/
def resolveTtl (defaultTtl : Nat) (ttl : Option Nat) : Nat :=
  jsNumOr ttl defaultTtl

/-- `new ApiCache(defaultTtl?)`: the field starts at one hour in
milliseconds and is overwritten only when the argument is truthy. -/
def mkApiCache (T : Type) (defaultTtl : Option Nat) : ApiCache T :=
  { store := [], defaultTtl := jsNumOr defaultTtl (60 * 60 * 1000) }

/-- `ApiCache.set(key, data, ttl?)`, with the ambient `Date.now()` made
an explicit argument.  `Map.set` replaces the binding for `key`; the
new binding is put in front so that `List.lookup` finds it. -/
def ApiCache.set {T : Type} (c : ApiCache T) (key : String) (data : T)
    (ttl : Option Nat) (now : Nat) : ApiCache T :=
  { c with store :=
      (key, { data := data, timestamp := now, ttl := resolveTtl c.defaultTtl ttl }) ::
        c.store.filter (fun kv => kv.1 != key) }

/-- `ApiCache.get(key)`, with `Date.now()` explicit.  Returns the read
result together with the cache after the read (the entry is deleted when
it is found expired). -/
def ApiCache.get {T : Type} (c : ApiCache T) (key : String) (now : Nat) :
    Option T × ApiCache T :=
  match c.store.lookup key with
  | none => (none, c)
  | some entry =>
    if entry.ttl < now - entry.timestamp then
      (none, { c with store := c.store.filter (fun kv => kv.1 != key) })
    else
      (some entry.data, c)

/-- `ApiCache.generateKey(endpoint, params?)`: sort the present property
names, render each as `name=value`, join with `&`.  An absent or empty
parameter object yields the bare endpoint. -/
def generateKey (endpoint : String) (params : List (String × JSVal)) : String :=
  if params.isEmpty then endpoint
  else
    let sortedKeys := (params.map Prod.fst).insertionSort (fun a b => keyLe a b = true)
    let sortedParams := sortedKeys.map
      (fun k => k ++ "=" ++ jsDisplay ((params.lookup k).getD JSVal.undef))
    endpoint ++ "?" ++ joinWith "&" sortedParams

/-! ### client.ts — NeonApiClient.makeRequest URL building

`makeRequest` flattens the parameter object into `URLSearchParams`,
skipping entries whose value is `undefined` or `null` and repeating the
key once per element for array values. -/

/-- The key/value pairs appended to `URLSearchParams` by `makeRequest`. -/
def urlQueryPairs (params : List (String × JSVal)) : List (String × String) :=
  params.foldl (fun acc kv =>
    match kv.2 with
    | .undef => acc
    | .null => acc
    | .arrStr xs => acc ++ xs.map (fun v => (kv.1, v))
    | v => acc ++ [(kv.1, jsDisplay v)]) []

/-! ### client.ts — NeonApiClient.makeRequest retry loop

One outbound attempt either rejects at the transport level (`fetch`
throws) or yields an HTTP response.  `response.ok` is the 2xx test on
the HTTP status; a non-ok response makes the code read the JSON error
body `\x7b detail, status \x7d` and throw
`NEON API Error: <detail> (Status: <status>)`.  The catch block retries
unless the thrown message contains the substring `Status: 4`. -/

/-- Decidable equality of settled promises, used to evaluate the model
on concrete inputs. -/
instance {ε α : Type} [DecidableEq ε] [DecidableEq α] : DecidableEq (Except ε α)
  | .error a, .error b => decidable_of_iff (a = b) (by simp)
  | .error _, .ok _ => isFalse (fun h => Except.noConfusion h)
  | .ok _, .error _ => isFalse (fun h => Except.noConfusion h)
  | .ok a, .ok b => decidable_of_iff (a = b) (by simp)

/-- The error body `NeonErrorResponse` from types.ts. -/
structure ErrorBody where
  detail : String
  status : Nat
deriving DecidableEq

/-- One outbound `fetch` outcome: a transport-level rejection, or an
HTTP response carrying a status code, an error body (read when the
status is not ok) and a payload (read when it is). -/
inductive FetchResult (T : Type) where
  | netError (msg : String)
  | httpResp (status : Nat) (errBody : ErrorBody) (payload : T)

/-- `response.ok`: HTTP status in the 2xx range. -/
def isOk (status : Nat) : Bool :=
  200 ≤ status && status ≤ 299

/-- The message of the error thrown for a non-ok response. -/
def errMessage (e : ErrorBody) : String :=
  "NEON API Error: " ++ e.detail ++ " (Status: " ++ toString e.status ++ ")"

/-- What one iteration of the try block produces: the payload on an ok
response, otherwise the message of the thrown error. -/
def classify {T : Type} : FetchResult T → Except String T
  | .netError msg => .error msg
  | .httpResp status errBody payload =>
    if isOk status then .ok payload else .error (errMessage errBody)

/-- The fail-fast test of the catch block:
`error.message.includes('Status: 4')`. -/
def isClientMsg (m : String) : Bool :=
  strContains m "Status: 4"

/-- `this.retryAttempts` (3). -/
def retryAttempts : Nat := 3

/-- `this.retryDelay` (1000 ms). -/
def retryDelay : Nat := 1000

/-- Observable trace of one `makeRequest` call: the settled result, how
many outbound attempts were made, and the backoff delays awaited
between attempts, in order. -/
structure ReqTrace (T : Type) where
  result : Except String T
  attempts : Nat
  delays : List Nat

/-- The body of the `for (attempt = 0; attempt < retryAttempts; ...)`
loop.  `pending` is the list of attempt indices still to run,
`lastError` the last caught message, `made` the attempts made so far
and `delays` the delays awaited so far.  After the loop the code throws
`lastError` (or a fixed message when no attempt ran). -/
def runAttempts {T : Type} (fetchAt : Nat → FetchResult T) (r d : Nat) :
    List Nat → Option String → Nat → List Nat → ReqTrace T
  | [], lastError, made, delays =>
    { result := .error (lastError.getD "Failed to make request after retries"),
      attempts := made, delays := delays }
  | attempt :: rest, _lastError, made, delays =>
    match classify (fetchAt attempt) with
    | .ok payload => { result := .ok payload, attempts := made + 1, delays := delays }
    | .error m =>
      if isClientMsg m then
        { result := .error m, attempts := made + 1, delays := delays }
      else
        runAttempts fetchAt r d rest (some m) (made + 1)
          (if attempt < r - 1 then delays ++ [d * (attempt + 1)] else delays)

/-- `NeonApiClient.makeRequest`, with the network abstracted as the
outcome of the fetch at each attempt index. -/
def makeRequest {T : Type} (fetchAt : Nat → FetchResult T) : ReqTrace T :=
  runAttempts fetchAt retryAttempts retryDelay (List.range retryAttempts) none 0 []

/-- An attempt whose outcome the catch block treats as transient. -/
def transientAttempt {T : Type} (r : FetchResult T) : Prop :=
  ∃ m, classify r = Except.error m ∧ isClientMsg m = false

/-! ### client.ts — NeonApiClient.queryData

`queryData` branches on `params.siteCodes && params.siteCodes.length > 1`
(an array, even empty, is truthy): the multi-site case sends POST with
the parameter object as JSON body and writes the result to the cache
with `cache.set(cacheKey, data.data)` — no ttl argument; the other case
rewrites `siteCodes` into a scalar `siteCode` and delegates to
`makeRequest(endpoint, queryParams, true, 30 * 60 * 1000)`. -/

/-- `DataQueryParams` from types.ts. -/
structure DataQueryParams where
  productCode : String
  siteCode : Option String := none
  siteCodes : Option (List String) := none
  startDateMonth : String
  endDateMonth : String
  package : Option String := none
  release : Option String := none
  includeProvisional : Option Bool := none
deriving DecidableEq

/-- An optional property of a parameter object: present iff `some`. -/
def optEntry (k : String) (v : Option JSVal) : List (String × JSVal) :=
  match v with
  | some x => [(k, x)]
  | none => []

/-- The parameter object `params` as an association list. -/
def toRecord (p : DataQueryParams) : List (String × JSVal) :=
  [("productCode", JSVal.str p.productCode)] ++
    optEntry "siteCode" (p.siteCode.map JSVal.str) ++
    optEntry "siteCodes" (p.siteCodes.map JSVal.arrStr) ++
    [("startDateMonth", JSVal.str p.startDateMonth),
     ("endDateMonth", JSVal.str p.endDateMonth)] ++
    optEntry "package" (p.package.map JSVal.str) ++
    optEntry "release" (p.release.map JSVal.str) ++
    optEntry "includeProvisional" (p.includeProvisional.map JSVal.bool)

/-- The GET-branch parameter object: `\x7b...params\x7d` with
`siteCode` overwritten by `siteCodes[0]` and `siteCodes` deleted, when
`params.siteCodes` is present (an empty array is truthy, so it yields a
present `siteCode` key with value `undefined`). -/
def queryGetParams (p : DataQueryParams) : List (String × JSVal) :=
  match p.siteCodes with
  | none => toRecord p
  | some cs =>
    (toRecord { p with siteCodes := none }).filter (fun kv => kv.1 != "siteCode") ++
      [("siteCode", match cs.head? with | some c => JSVal.str c | none => JSVal.undef)]

/-- HTTP transport of a data query. -/
inductive Method where
  | GET
  | POST
deriving DecidableEq

/-- The transport and caching decision `queryData` takes for one call:
the method, the ttl argument handed to the cache write on success
(`none` when `cache.set` is called without a ttl), the JSON body for
POST and the flattened parameters for GET. -/
structure QueryPlan where
  method : Method
  ttlArg : Option Nat
  body : Option (List (String × JSVal))
  getParams : List (String × JSVal)
deriving DecidableEq

/-- The branch condition `params.siteCodes && params.siteCodes.length > 1`
(an absent `siteCodes` is falsy; a present array, even empty, is truthy,
so only the length test decides). -/
def multiSite (p : DataQueryParams) : Bool :=
  match p.siteCodes with
  | some cs => decide (1 < cs.length)
  | none => false

/-- `NeonApiClient.queryData`, reduced to the plan it executes. -/
def queryData (p : DataQueryParams) : QueryPlan :=
  if multiSite p then
    { method := .POST, ttlArg := none, body := some (toRecord p), getParams := [] }
  else
    { method := .GET, ttlArg := some (30 * 60 * 1000), body := none,
      getParams := queryGetParams p }

/-! ### client.ts — the location resolver

`findTowersAtSite` and `searchLocationsByType` call two operations of
the same client: `getLocation(name)` and `getSiteLocations()`.  Both
are abstracted as an environment; `Except.error` is a rejected call. -/

/-- The fields of `Location` (types.ts) that the resolver reads. -/
structure Location where
  locationName : String
  locationType : String
  locationDescription : String
  siteCode : String
deriving DecidableEq

/-- The remote operations the resolver depends on. -/
structure ApiEnv where
  getLocation : String → Except String Location
  getSiteLocations : Except String (List Location)

/-- The multi-signal filter applied to the site-location catalog. -/
def towerFilter (siteCode : String) (loc : Location) : Bool :=
  loc.siteCode == siteCode &&
    (loc.locationType == "TOWER" ||
      strContains (jsToUpper loc.locationName) "TOWER" ||
      strContains (jsToLower loc.locationDescription) "tower" ||
      strContains (jsToLower loc.locationDescription) "flux")

/-- The `possibleTowerNames` literal list from `findTowersAtSite`. -/
def possibleTowerNames (siteCode : String) : List String :=
  ["TOWER" ++ siteCode, siteCode ++ "_TOWER", siteCode ++ ".TOWER",
   "TOWER104454", "TOWER103029", "TOWER102755"]

/-- The pattern-guess loop: try each name; a rejected or mismatching
lookup contributes nothing (each lookup sits in its own try/catch). -/
def patternGuess (env : ApiEnv) (siteCode : String) :
    List String → List Location → List Location
  | [], towers => towers
  | towerName :: rest, towers =>
    match env.getLocation towerName with
    | .ok tower =>
      if tower.siteCode == siteCode then
        patternGuess env siteCode rest (towers ++ [tower])
      else
        patternGuess env siteCode rest towers
    | .error _ => patternGuess env siteCode rest towers

/-- `NeonApiClient.findTowersAtSite`.  The outer try/catch converts a
rejected catalog fetch into `[]`; the SRER direct lookup sits in an
inner try/catch and returns early only when the looked-up location
belongs to the requested site. -/
def findTowersAtSite (env : ApiEnv) (siteCode : String) : List Location :=
  let early : Option (List Location) :=
    if siteCode == "SRER" then
      match env.getLocation "TOWER104454" with
      | .ok tower => if tower.siteCode == siteCode then some [tower] else none
      | .error _ => none
    else none
  match early with
  | some r => r
  | none =>
    match env.getSiteLocations with
    | .error _ => []
    | .ok siteLocations =>
      let towers := siteLocations.filter (towerFilter siteCode)
      if towers.isEmpty then
        patternGuess env siteCode (possibleTowerNames siteCode) towers
      else towers

/-- `NeonApiClient.searchLocationsByType`.  A truthy `siteCode` (a
present, non-empty string) delegates to `findTowersAtSite`; otherwise
the first 10 catalog entries are each resolved through the full
`findTowersAtSite` chain, a rejected catalog fetch yielding `[]`. -/
def searchLocationsByType (env : ApiEnv) (locationType : String)
    (siteCode : Option String) : List Location :=
  let given : Bool := match siteCode with | some s => !s.isEmpty | none => false
  if given then findTowersAtSite env (siteCode.getD "")
  else
    match env.getSiteLocations with
    | .error _ => []
    | .ok siteLocations =>
      (siteLocations.take 10).foldl
        (fun acc site => acc ++ findTowersAtSite env site.siteCode) []

/-! ### Concrete fixtures used to evaluate the model -/

/-- A multi-site data-availability query. -/
def pMulti : DataQueryParams :=
  { productCode := "DP1.10003.001"
    siteCodes := some ["HARV", "SRER"]
    startDateMonth := "2023-01"
    endDateMonth := "2023-02" }

/-- A single-site data-availability query. -/
def pSingle : DataQueryParams :=
  { productCode := "DP1.10003.001"
    siteCodes := some ["HARV"]
    startDateMonth := "2023-01"
    endDateMonth := "2023-02" }

/-- A catalog entry for site AAAA that the tower filter does not match. -/
def siteA : Location :=
  { locationName := "AAAA site"
    locationType := "SITE"
    locationDescription := "grassland"
    siteCode := "AAAA" }

/-- A tower at site AAAA reachable only by direct name lookup. -/
def towerB : Location :=
  { locationName := "TOWERAAAA"
    locationType := "TOWER"
    locationDescription := "eddy covariance"
    siteCode := "AAAA" }

/-- An environment whose catalog lists `siteA` and whose by-name
lookups all reject. -/
def envA : ApiEnv :=
  { getLocation := fun _ => Except.error "down"
    getSiteLocations := Except.ok [siteA] }

/-- Same catalog as `envA`, but the by-name lookup of `TOWERAAAA`
succeeds. -/
def envB : ApiEnv :=
  { getLocation := fun n => if n == "TOWERAAAA" then Except.ok towerB else Except.error "down"
    getSiteLocations := Except.ok [siteA] }

/-- An environment in which every remote call rejects. -/
def envDown : ApiEnv :=
  { getLocation := fun _ => Except.error "down"
    getSiteLocations := Except.error "down" }

/-- A one-entry cache used to evaluate the expire-on-read contract. -/
def cacheW : ApiCache Nat :=
  { store := [("k", { data := 5, timestamp := 100, ttl := 10 })]
    defaultTtl := 60 * 60 * 1000 }

/-- An attempt sequence every element of which is a transport failure. -/
def fBoom : Nat → FetchResult Unit :=
  fun _ => FetchResult.netError "boom"

/-! ### Helper lemmas -/

/-- Deleting a key from an association list makes its lookup miss. -/
theorem lookup_filter_ne {α β : Type} [BEq α] [LawfulBEq α]
    (l : List (α × β)) (k : α) :
    (l.filter (fun kv => kv.1 != k)).lookup k = none := by
  induction l with
  | nil => rfl
  | cons kv rest ih =>
    obtain ⟨a, b⟩ := kv
    by_cases h : a = k
    · have hf : (a != k) = false := by simp [h]
      simp only [List.filter_cons, hf, Bool.false_eq_true, if_false]
      exact ih
    · have hf : (a != k) = true := by simp [h]
      have hk : (k == a) = false := by simp [Ne.symm h]
      simp only [List.filter_cons, hf, if_true, List.lookup, hk]
      exact ih

/-- The retry loop makes at most one outbound attempt per pending
attempt index. -/
theorem runAttempts_attempts_le {T : Type} (fetchAt : Nat → FetchResult T) (r d : Nat) :
    ∀ (l : List Nat) (lastE : Option String) (made : Nat) (ds : List Nat),
      (runAttempts fetchAt r d l lastE made ds).attempts ≤ made + l.length := by
  intro l
  induction l with
  | nil => intro lastE made ds; simp [runAttempts]
  | cons a rest ih =>
    intro lastE made ds
    simp only [runAttempts]
    cases hc : classify (fetchAt a) with
    | ok payload => simp
    | error m =>
      by_cases hm : isClientMsg m = true
      · simp [hm]
      · simp only [Bool.not_eq_true] at hm
        simp only [hm, Bool.false_eq_true, if_false]
        calc (runAttempts fetchAt r d rest (some m) (made + 1)
                (if a < r - 1 then ds ++ [d * (a + 1)] else ds)).attempts
            ≤ (made + 1) + rest.length := ih _ _ _
          _ ≤ made + (a :: rest).length := by simp [List.length_cons]; omega

/-- Accumulating appends in a left fold is flattening a map. -/
theorem foldl_append_eq_join {α β : Type} (f : α → List β) :
    ∀ (l : List α) (acc : List β),
      l.foldl (fun a x => a ++ f x) acc = acc ++ (l.map f).flatten := by
  intro l
  induction l with
  | nil => intro acc; simp
  | cons x rest ih => intro acc; simp [List.foldl, ih]

/-- A pattern-guess sweep in which every lookup rejects adds nothing. -/
theorem patternGuess_all_error (env : ApiEnv) (siteCode : String)
    (h : ∀ n, ∃ m, env.getLocation n = Except.error m) :
    ∀ (names : List String) (towers : List Location),
      patternGuess env siteCode names towers = towers := by
  intro names
  induction names with
  | nil => intro towers; rfl
  | cons n rest ih =>
    intro towers
    obtain ⟨m, hm⟩ := h n
    simp [patternGuess, hm, ih]

/-! ### Claim theorems -/

/-- Claim C1 (refuted on the code): `makeRequest` does not take the
fail-fast decision from the HTTP status category; it takes it from the
`status` field of the response body, embedded in the thrown message.
An HTTP 404 response whose body reports status 503 is retried for all
three attempts, while an HTTP 503 response whose body reports status
404 fails fast after a single attempt. -/
theorem makeRequest_retry_uses_body_status :
    (makeRequest (fun _ => FetchResult.httpResp 404 ⟨"oops", 503⟩ ())).attempts = 3 ∧
    (makeRequest (fun _ => FetchResult.httpResp 404 ⟨"oops", 503⟩ ())).result =
      Except.error "NEON API Error: oops (Status: 503)" ∧
    (makeRequest (fun _ => FetchResult.httpResp 503 ⟨"oops", 404⟩ ())).attempts = 1 := by
  decide

/-- Claim C2: `queryData` sends POST exactly when `siteCodes` holds more
than one site, and GET when it holds one or zero sites (or is absent). -/
theorem queryData_post_iff_multisite : ∀ p : DataQueryParams,
    ((queryData p).method = Method.POST ↔ 1 < (p.siteCodes.getD []).length) ∧
    ((queryData p).method = Method.GET ↔ (p.siteCodes.getD []).length ≤ 1) ∧
    ((queryData p).method = Method.POST → (queryData p).body = some (toRecord p)) ∧
    ((queryData p).method = Method.GET → (queryData p).body = none ∧
      (queryData p).getParams = queryGetParams p) := by
  intro p
  cases h : p.siteCodes with
  | none => simp [queryData, multiSite, h]
  | some cs =>
    by_cases hlen : 1 < cs.length
    · simp [queryData, multiSite, h, hlen]
    · simp [queryData, multiSite, h, hlen]
      omega

/-- Claim C4 (refuted on the code): the multi-site POST branch writes
its result with `cache.set(cacheKey, data.data)` and no ttl argument, so
the entry receives the one-hour default TTL, not the 30-minute TTL the
single-site GET branch passes to `makeRequest`. -/
theorem queryData_post_ttl_default :
    (queryData pMulti).method = Method.POST ∧
    resolveTtl (60 * 60 * 1000) (queryData pMulti).ttlArg = 60 * 60 * 1000 ∧
    resolveTtl (60 * 60 * 1000) (queryData pMulti).ttlArg ≠ 30 * 60 * 1000 ∧
    (queryData pSingle).method = Method.GET ∧
    resolveTtl (60 * 60 * 1000) (queryData pSingle).ttlArg = 30 * 60 * 1000 := by
  decide

/-- Claim C5: a `get` strictly after `storedAt + ttl` misses and deletes
the entry; a `get` at or before `storedAt + ttl` returns the stored
value and leaves the cache unchanged. -/
theorem cache_get_expire_on_read : ∀ (T : Type) (c : ApiCache T) (k : String)
    (now : Nat) (e : CacheEntry T), c.store.lookup k = some e →
    (e.timestamp + e.ttl < now →
      (c.get k now).1 = none ∧ ((c.get k now).2.store.lookup k) = none) ∧
    (now ≤ e.timestamp + e.ttl →
      (c.get k now).1 = some e.data ∧ (c.get k now).2 = c) := by
  intro T c k now e hl
  have hiff : (e.ttl < now - e.timestamp) ↔ (e.timestamp + e.ttl < now) := by
    rw [lt_tsub_iff_left]
  constructor
  · intro hexp
    have hc : e.ttl < now - e.timestamp := hiff.mpr hexp
    simp [ApiCache.get, hl, hc, lookup_filter_ne]
  · intro hle
    have hc : ¬ e.ttl < now - e.timestamp := by
      rw [hiff]; omega
    simp [ApiCache.get, hl, hc]

/-- Witness for C5 at a concrete cache: reading key `k` at time 111
(past 100 + 10) misses and deletes; reading at time 105 hits. -/
theorem cache_get_expire_on_read_witness :
    ((cacheW.get "k" 111).1 = none ∧ ((cacheW.get "k" 111).2.store.lookup "k") = none) ∧
    ((cacheW.get "k" 105).1 = some 5 ∧ (cacheW.get "k" 105).2 = cacheW) :=
  ⟨(cache_get_expire_on_read Nat cacheW "k" 111 ⟨5, 100, 10⟩ (by decide)).1 (by decide),
   (cache_get_expire_on_read Nat cacheW "k" 105 ⟨5, 100, 10⟩ (by decide)).2 (by decide)⟩

/-- Claim C10: the falsy ttl 0 cannot be expressed: `set` with ttl 0
stores the one-hour default, `new ApiCache(0)` keeps the one-hour
default, and the entry so stored is not immediately expired. -/
theorem cache_zero_ttl_falsy : ∀ (k : String) (v : Nat) (now : Nat),
    (mkApiCache Nat (some 0)).defaultTtl = 60 * 60 * 1000 ∧
    ((mkApiCache Nat (some 0)).set k v (some 0) now).store.lookup k =
      some { data := v, timestamp := now, ttl := 60 * 60 * 1000 } ∧
    (((mkApiCache Nat (some 0)).set k v (some 0) now).get k now).1 = some v := by
  intro k v now
  refine ⟨rfl, ?_, ?_⟩
  · simp [mkApiCache, ApiCache.set, resolveTtl, jsNumOr, List.lookup]
  · simp [mkApiCache, ApiCache.set, ApiCache.get, resolveTtl, jsNumOr, List.lookup,
      Nat.sub_self]

/-- Claim C3: a run whose attempts all fail transiently makes exactly
the 3 configured attempts (never more than `retryAttempts` in any run),
awaits the linear-backoff delays 1000 * 1 and 1000 * 2 — strictly
increasing — and settles on the failure of the last attempt. -/
theorem makeRequest_transient_backoff : ∀ (T : Type) (fetchAt : Nat → FetchResult T),
    (makeRequest fetchAt).attempts ≤ retryAttempts ∧
    ((∀ i, i < retryAttempts → transientAttempt (fetchAt i)) →
      (makeRequest fetchAt).attempts = 3 ∧
      (makeRequest fetchAt).delays = [retryDelay * 1, retryDelay * 2] ∧
      List.Chain' (fun a b => a < b) (makeRequest fetchAt).delays ∧
      (makeRequest fetchAt).result = classify (fetchAt 2)) := by
  intro T fetchAt
  constructor
  · have h := runAttempts_attempts_le fetchAt retryAttempts retryDelay
      (List.range retryAttempts) none 0 []
    simpa [makeRequest, retryAttempts] using h
  · intro h
    obtain ⟨m0, hc0, hm0⟩ := h 0 (by decide)
    obtain ⟨m1, hc1, hm1⟩ := h 1 (by decide)
    obtain ⟨m2, hc2, hm2⟩ := h 2 (by decide)
    have hrange : List.range retryAttempts = [0, 1, 2] := rfl
    refine ⟨?_, ?_, ?_, ?_⟩ <;>
      simp [makeRequest, hrange, runAttempts, hc0, hm0, hc1, hm1, hc2, hm2,
        retryAttempts, retryDelay]

/-- Witness for C3: a run of three transport failures. -/
theorem makeRequest_transient_backoff_witness :
    (makeRequest fBoom).attempts = 3 ∧
    (makeRequest fBoom).delays = [retryDelay * 1, retryDelay * 2] ∧
    List.Chain' (fun a b => a < b) (makeRequest fBoom).delays ∧
    (makeRequest fBoom).result = classify (fBoom 2) :=
  (makeRequest_transient_backoff Unit fBoom).2 (fun _ _ => ⟨"boom", rfl, rfl⟩)

/-- Claim C7 (refuted on the code): a present parameter whose value is
`undefined` is excluded from the URL that goes on the wire but NOT from
the cache key, so two requests identical on the wire fingerprint to
different keys. -/
theorem generateKey_undef_not_excluded_cex :
    urlQueryPairs [("productCode", JSVal.str "DP1.10003.001"), ("siteCode", JSVal.undef)] =
      urlQueryPairs [("productCode", JSVal.str "DP1.10003.001")] ∧
    generateKey "/api/v0/data/query"
        [("productCode", JSVal.str "DP1.10003.001"), ("siteCode", JSVal.undef)] ≠
      generateKey "/api/v0/data/query" [("productCode", JSVal.str "DP1.10003.001")] := by
  decide

/-- Claim C7 (amended): `generateKey` serializes every present
parameter, including an `undefined`-valued one, which contributes the
component `key=undefined`; stripping such an entry therefore changes
the key. -/
theorem generateKey_undef_serialized : ∀ (endpoint k : String),
    generateKey endpoint [(k, JSVal.undef)] = endpoint ++ "?" ++ (k ++ "=" ++ "undefined") ∧
    generateKey endpoint [(k, JSVal.undef)] ≠ generateKey endpoint [] := by
  intro endpoint k
  have h1 : generateKey endpoint [(k, JSVal.undef)] =
      endpoint ++ "?" ++ (k ++ "=" ++ "undefined") := by
    simp [generateKey, List.insertionSort, List.orderedInsert, List.lookup, joinWith,
      jsDisplay]
  have h0 : generateKey endpoint [] = endpoint := by
    simp [generateKey]
  refine ⟨h1, ?_⟩
  rw [h1, h0]
  intro heq
  have hlen := congrArg String.length heq.symm
  have hq : ("?" : String).length = 1 := rfl
  have hu : ("undefined" : String).length = 9 := rfl
  have he : ("=" : String).length = 1 := rfl
  simp [String.length_append, hq, hu, he] at hlen
  omega

/-- Claim C9 (refuted on the code): the cross-site search does not run
only the full-catalog filter; it runs the whole `findTowersAtSite`
chain per site, so direct by-name lookups are issued and their results
surface.  `envA` and `envB` share the same catalog and differ only in
the by-name lookup endpoint, yet the cross-site results differ. -/
theorem searchLocations_crossSite_uses_fallbacks_cex :
    envA.getSiteLocations = envB.getSiteLocations ∧
    searchLocationsByType envA "TOWER" none = [] ∧
    searchLocationsByType envB "TOWER" none = [towerB] ∧
    searchLocationsByType envA "TOWER" none ≠ searchLocationsByType envB "TOWER" none := by
  refine ⟨rfl, by decide, by decide, by decide⟩

/-- Claim C9 (amended): the cross-site search is bounded to the first
10 catalog entries, but resolves each of them through the full
`findTowersAtSite` fallback chain (known-exception lookup, catalog
filter, pattern guesses), concatenating the per-site results. -/
theorem searchLocations_crossSite_cap : ∀ (env : ApiEnv) (ty : String)
    (locs : List Location), env.getSiteLocations = Except.ok locs →
    searchLocationsByType env ty none =
      ((locs.take 10).map (fun site => findTowersAtSite env site.siteCode)).flatten := by
  intro env ty locs h
  simp [searchLocationsByType, h, foldl_append_eq_join]

/-- Witness for the amended C9 at a concrete environment. -/
theorem searchLocations_crossSite_cap_witness :
    searchLocationsByType envA "TOWER" none =
      (([siteA].take 10).map (fun site => findTowersAtSite envA site.siteCode)).flatten :=
  searchLocations_crossSite_cap envA "TOWER" [siteA] rfl

/-- Changing only the outcome of the `TOWER104454` lookup — from a
rejection to a location belonging to another site — does not change a
pattern-guess sweep: both outcomes contribute nothing. -/
theorem patternGuess_congr (env env2 : ApiEnv) (siteCode : String) (m : String)
    (t : Location)
    (hn : ∀ n, n ≠ "TOWER104454" → env2.getLocation n = env.getLocation n)
    (h1 : env.getLocation "TOWER104454" = Except.error m)
    (h2 : env2.getLocation "TOWER104454" = Except.ok t)
    (ht : t.siteCode ≠ siteCode) :
    ∀ (names : List String) (towers : List Location),
      patternGuess env2 siteCode names towers = patternGuess env siteCode names towers := by
  intro names
  induction names with
  | nil => intro towers; rfl
  | cons n rest ih =>
    intro towers
    by_cases hc : n = "TOWER104454"
    · subst hc
      have htb : (t.siteCode == siteCode) = false := by simp [ht]
      simp [patternGuess, h1, h2, htb, ih]
    · simp only [patternGuess, hn n hc]
      cases hcl : env.getLocation n with
      | ok tw =>
        by_cases hts : (tw.siteCode == siteCode) = true <;> simp [hts, ih]
      | error e => simp [ih]

/-- Claim C8: the resolver degrades to an empty collection rather than
raising.  Part 1: when every by-name lookup rejects and the catalog
fetch rejects, both resolver entry points return `[]`.  Part 2: when the
catalog is reachable but matches nothing and every by-name lookup
rejects, the result is `[]`, not an error.  Part 3: a failure of the
known-exception direct lookup is treated exactly as that strategy
finding nothing — replacing the rejection by a location of another site
leaves the whole chain's result unchanged. -/
theorem locationResolver_error_semantics : ∀ (env : ApiEnv) (siteCode : String),
    ((∀ n, ∃ m, env.getLocation n = Except.error m) →
      ∀ e, env.getSiteLocations = Except.error e →
        findTowersAtSite env siteCode = [] ∧
        searchLocationsByType env "TOWER" none = [] ∧
        searchLocationsByType env "TOWER" (some siteCode) = []) ∧
    ((∀ n, ∃ m, env.getLocation n = Except.error m) →
      ∀ locs, env.getSiteLocations = Except.ok locs →
        (∀ loc ∈ locs, towerFilter siteCode loc = false) →
        findTowersAtSite env siteCode = []) ∧
    (∀ (env2 : ApiEnv) (m : String) (t : Location),
      env2.getSiteLocations = env.getSiteLocations →
      (∀ n, n ≠ "TOWER104454" → env2.getLocation n = env.getLocation n) →
      env.getLocation "TOWER104454" = Except.error m →
      env2.getLocation "TOWER104454" = Except.ok t →
      t.siteCode ≠ siteCode →
      findTowersAtSite env2 siteCode = findTowersAtSite env siteCode) := by
  intro env siteCode
  refine ⟨?_, ?_, ?_⟩
  · intro hL e he
    obtain ⟨m, hm⟩ := hL "TOWER104454"
    have hft : findTowersAtSite env siteCode = [] := by
      simp [findTowersAtSite, hm, he, ite_self]
    refine ⟨hft, ?_, ?_⟩
    · simp [searchLocationsByType, he]
    · by_cases hem : siteCode.isEmpty = true
      · simp [searchLocationsByType, hem, he]
      · simp [searchLocationsByType, hem, hft]
  · intro hL locs hok hfilt
    obtain ⟨m, hm⟩ := hL "TOWER104454"
    have hfil : locs.filter (towerFilter siteCode) = [] := by
      rw [List.filter_eq_nil_iff]
      intro a ha
      simp [hfilt a ha]
    simp [findTowersAtSite, hm, hok, ite_self, hfil,
      patternGuess_all_error env siteCode hL]
  · intro env2 m t hcat hn h1 h2 ht
    have htb : (t.siteCode == siteCode) = false := by simp [ht]
    simp only [findTowersAtSite, h1, h2, htb, hcat, Bool.false_eq_true, if_false,
      ite_self]
    cases hcl : env.getSiteLocations with
    | error e => simp
    | ok locs =>
      by_cases hemp : (locs.filter (towerFilter siteCode)).isEmpty = true
      · simp [hemp, patternGuess_congr env env2 siteCode m t hn h1 h2 ht]
      · simp [hemp]

/-- Witness for C8 in an environment where every remote call rejects. -/
theorem locationResolver_error_semantics_witness :
    findTowersAtSite envDown "ABBY" = [] ∧
    searchLocationsByType envDown "TOWER" none = [] ∧
    searchLocationsByType envDown "TOWER" (some "ABBY") = [] :=
  (locationResolver_error_semantics envDown "ABBY").1 (fun _ => ⟨"down", rfl⟩) "down" rfl

/-- The key comparator is total. -/
theorem charsLe_total : ∀ (a b : List Char), charsLe a b = true ∨ charsLe b a = true := by
  intro a
  induction a with
  | nil => intro b; left; rfl
  | cons x xs ih =>
    intro b
    cases b with
    | nil => right; rfl
    | cons y ys =>
      rcases lt_trichotomy x y with h | h | h
      · left; simp [charsLe, h]
      · subst h
        rcases ih ys with hh | hh
        · left; simp [charsLe, hh]
        · right; simp [charsLe, hh]
      · right; simp [charsLe, h]

/-- The key comparator is transitive. -/
theorem charsLe_trans : ∀ (a b c : List Char),
    charsLe a b = true → charsLe b c = true → charsLe a c = true := by
  intro a
  induction a with
  | nil => intro b c _ _; rfl
  | cons x xs ih =>
    intro b c hab hbc
    cases b with
    | nil => simp [charsLe] at hab
    | cons y ys =>
      cases c with
      | nil => simp [charsLe] at hbc
      | cons z zs =>
        by_cases hxy : x < y
        · by_cases hyz : y < z
          · simp [charsLe, lt_trans hxy hyz]
          · by_cases hyz2 : y = z
            · subst hyz2; simp [charsLe, hxy]
            · simp [charsLe, hyz, hyz2] at hbc
        · by_cases hxy2 : x = y
          · subst hxy2
            simp only [charsLe, lt_irrefl, if_false, if_pos rfl] at hab
            by_cases hxz : x < z
            · simp [charsLe, hxz]
            · by_cases hxz2 : x = z
              · subst hxz2
                simp only [charsLe, lt_irrefl, if_false, if_pos rfl] at hbc ⊢
                exact ih ys zs hab hbc
              · simp [charsLe, hxz, hxz2] at hbc
          · simp [charsLe, hxy, hxy2] at hab

/-- The key comparator is antisymmetric. -/
theorem charsLe_antisymm : ∀ (a b : List Char),
    charsLe a b = true → charsLe b a = true → a = b := by
  intro a
  induction a with
  | nil =>
    intro b _ hba
    cases b with
    | nil => rfl
    | cons y ys => simp [charsLe] at hba
  | cons x xs ih =>
    intro b hab hba
    cases b with
    | nil => simp [charsLe] at hab
    | cons y ys =>
      by_cases hxy : x < y
      · simp [charsLe, lt_asymm hxy, (ne_of_gt hxy)] at hba
      · by_cases hxy2 : x = y
        · subst hxy2
          simp only [charsLe, lt_irrefl, if_false, if_pos rfl] at hab hba
          rw [ih ys hab hba]
        · simp [charsLe, hxy, hxy2] at hab

/-- `keyLe` is total. -/
theorem keyLe_total : ∀ a b : String, keyLe a b = true ∨ keyLe b a = true :=
  fun a b => charsLe_total a.data b.data

/-- `keyLe` is transitive. -/
theorem keyLe_trans : ∀ a b c : String,
    keyLe a b = true → keyLe b c = true → keyLe a c = true :=
  fun a b c => charsLe_trans a.data b.data c.data

/-- `keyLe` is antisymmetric. -/
theorem keyLe_antisymm : ∀ a b : String, keyLe a b = true → keyLe b a = true → a = b := by
  intro a b hab hba
  cases a with
  | mk da =>
    cases b with
    | mk db =>
      have : da = db := charsLe_antisymm da db hab hba
      rw [this]

/-- Looking a key up in an association list with distinct keys is
invariant under permutation of the list. -/
theorem lookup_eq_of_perm {α β : Type} [BEq α] [LawfulBEq α]
    {l1 l2 : List (α × β)} (h : l1.Perm l2) :
    (l1.map Prod.fst).Nodup → ∀ k, l1.lookup k = l2.lookup k := by
  induction h with
  | nil => intro _ k; rfl
  | cons x hp ih =>
    intro nd k
    obtain ⟨a, b⟩ := x
    have nd' := (by simpa using nd : _ ∧ _).2
    by_cases hk : (k == a) = true
    · simp [List.lookup, hk]
    · simp only [Bool.not_eq_true] at hk
      simp [List.lookup, hk, ih nd' k]
  | swap x y l =>
    intro nd k
    obtain ⟨a, b⟩ := x
    obtain ⟨c, d⟩ := y
    have hne : c ≠ a := by
      have := (by simpa using nd : _ ∧ _).1
      exact this.1
    by_cases hkc : (k == c) = true
    · have hka : (k == a) = false := by
        have : k = c := by simpa using hkc
        subst this
        simpa using hne
      simp [List.lookup, hkc, hka]
    · simp only [Bool.not_eq_true] at hkc
      by_cases hka : (k == a) = true
      · simp [List.lookup, hkc, hka]
      · simp only [Bool.not_eq_true] at hka
        simp [List.lookup, hkc, hka]
  | trans h1 h2 ih1 ih2 =>
    intro nd k
    have nd2 := ((h1.map Prod.fst).nodup_iff).mp nd
    exact (ih1 nd k).trans (ih2 nd2 k)

/-- Claim C6: the cache key is invariant under permutation of the
parameter object: two parameter objects holding the same key/value
pairs in different order produce the same key. -/
theorem generateKey_perm_invariant : ∀ (endpoint : String)
    (P1 P2 : List (String × JSVal)), P1.Perm P2 → (P1.map Prod.fst).Nodup →
    generateKey endpoint P1 = generateKey endpoint P2 := by
  intro endpoint P1 P2 hp nd
  by_cases hemp : P1.isEmpty = true
  · have h1 : P1 = [] := List.isEmpty_iff.mp hemp
    subst h1
    have h2 : P2 = [] := hp.symm.eq_nil
    subst h2
    rfl
  · have hemp2 : P2.isEmpty = false := by
      cases h2 : P2 with
      | nil =>
        subst h2
        exact absurd (List.isEmpty_iff.mpr hp.eq_nil) hemp
      | cons q qs => rfl
    have hemp1 : P1.isEmpty = false := by
      cases h1 : P1 with
      | nil => subst h1; simp at hemp
      | cons q qs => rfl
    haveI ht : IsTotal String (fun a b => keyLe a b = true) := ⟨keyLe_total⟩
    haveI htr : IsTrans String (fun a b => keyLe a b = true) := ⟨keyLe_trans⟩
    haveI ha : IsAntisymm String (fun a b => keyLe a b = true) := ⟨keyLe_antisymm⟩
    have hkeys : (P1.map Prod.fst).insertionSort (fun a b => keyLe a b = true) =
        (P2.map Prod.fst).insertionSort (fun a b => keyLe a b = true) := by
      refine List.eq_of_perm_of_sorted ?_
        (List.sorted_insertionSort _ _) (List.sorted_insertionSort _ _)
      exact (List.perm_insertionSort _ _).trans
        ((hp.map Prod.fst).trans (List.perm_insertionSort _ _).symm)
    have hfun : (fun k => k ++ "=" ++ jsDisplay ((P1.lookup k).getD JSVal.undef)) =
        (fun k => k ++ "=" ++ jsDisplay ((P2.lookup k).getD JSVal.undef)) := by
      funext k
      rw [lookup_eq_of_perm hp nd k]
    simp only [generateKey, hemp1, hemp2, Bool.false_eq_true, if_false, hkeys, hfun]

/-- Witness for C6: two orderings of the same two parameters. -/
theorem generateKey_perm_invariant_witness :
    generateKey "/api/v0/products"
        [("release", JSVal.str "RELEASE-2024"), ("limit", JSVal.num 5)] =
      generateKey "/api/v0/products"
        [("limit", JSVal.num 5), ("release", JSVal.str "RELEASE-2024")] :=
  generateKey_perm_invariant "/api/v0/products" _ _
    (List.Perm.swap ("limit", JSVal.num 5) ("release", JSVal.str "RELEASE-2024") [])
    (by decide)
